import Mathlib

/-!
Verification development for the fundsol donation-campaign ledger.

The definitions below are a shallow embedding of the data-consistency core:
the in-memory cache (src/lib/cache.ts), the retrying query executor and the
transaction runner (src/lib/db.ts), the slug generator (generateSlug in the
utils module), and the campaign/donation HTTP write paths
(src/app/api/donations/route.ts, src/app/api/campaigns/route.ts,
src/app/api/campaigns/[id]/route.ts, src/app/api/donations/summary/route.ts).
JavaScript numbers are modelled as rationals, timestamps as naturals
(milliseconds), and the SQLite tables as lists of rows.
-/

namespace FundSol

/-! ## JavaScript values and truthiness (for the cache layer) -/

/-- A JavaScript value as far as the cache layer distinguishes them:
numbers, strings, booleans, null and undefined. -/
inductive JsVal where
  | num (q : ℚ)
  | str (s : String)
  | bool (b : Bool)
  | null
  | undef
  deriving Repr, DecidableEq

/-- JavaScript truthiness: 0, the empty string, false, null and undefined
are falsy, everything else is truthy. -/
def truthy : JsVal → Bool
  | .num q => decide (q ≠ 0)
  | .str s => decide (s ≠ "")
  | .bool b => b
  | .null => false
  | .undef => false

/-! ## Cache (src/lib/cache.ts)

A `Cache` instance holds a `Map` from string keys to `{data, timestamp}`
entries plus the deferred evictions scheduled by `set` when it is given an
explicit duration (the `setTimeout` callbacks, each of which captured the
key, the timestamp of the entry it belongs to, and its firing time). -/

/-- One cache entry: the stored data and the `Date.now()` timestamp at which
it was stored (cache.ts, `CacheEntry`). -/
structure CacheEntry where
  data : JsVal
  timestamp : Nat
  deriving Repr, DecidableEq

/-- A deferred eviction scheduled by `Cache.set` with an explicit duration:
it fires at time `fireAt = timestamp + duration` and deletes the entry at
`key` only if that entry still has the captured `timestamp`. -/
structure EvictionTimer where
  key : String
  timestamp : Nat
  fireAt : Nat
  deriving Repr, DecidableEq

/-- The state of one `Cache` instance. -/
structure CacheState where
  entries : List (String × CacheEntry)
  timers : List EvictionTimer
  deriving Repr, DecidableEq

/-- The empty cache. -/
def CacheState.empty : CacheState := ⟨[], []⟩

/-- The default duration of the `Cache` constructor: 5 minutes in
milliseconds. -/
def defaultDuration : Nat := 5 * 60 * 1000

/-- `Map.get`: the entry stored under `key`, if any. -/
def lookupEntry : List (String × CacheEntry) → String → Option CacheEntry
  | [], _ => none
  | (k, e) :: rest, key => if k = key then some e else lookupEntry rest key

/-- `Map.delete`: remove the entry stored under `key`. -/
def eraseEntry : List (String × CacheEntry) → String → List (String × CacheEntry)
  | [], _ => []
  | (k, e) :: rest, key =>
    if k = key then eraseEntry rest key else (k, e) :: eraseEntry rest key

/-- `Cache.get`: return the entry at `key` unless it is absent or older than
the instance default duration, in which case the entry is evicted and `null`
is returned.  Note the expiry check compares against `defaultDuration`, not
against any duration that was passed to `set`. -/
def Cache.get (dflt : Nat) (now : Nat) (key : String) (s : CacheState) :
    Option JsVal × CacheState :=
  match lookupEntry s.entries key with
  | none => (none, s)
  | some entry =>
    if now - entry.timestamp > dflt then
      (none, { s with entries := eraseEntry s.entries key })
    else
      (some entry.data, s)

/-- `Cache.set`: store `⟨data, now⟩` under `key`; when an explicit duration
is given, additionally schedule a deferred eviction firing after `duration`
milliseconds that deletes the entry only if its timestamp is unchanged. -/
def Cache.set (now : Nat) (key : String) (data : JsVal) (duration : Option Nat)
    (s : CacheState) : CacheState :=
  let base : CacheState :=
    { s with entries := (key, ⟨data, now⟩) :: eraseEntry s.entries key }
  match duration with
  | none => base
  | some d => { base with timers := base.timers ++ [⟨key, now, now + d⟩] }

/-- Fire a single scheduled eviction: delete the entry at the captured key
if and only if it still carries the captured timestamp. -/
def fireTimer (s : CacheState) (t : EvictionTimer) : CacheState :=
  match lookupEntry s.entries t.key with
  | none => s
  | some e =>
    if e.timestamp = t.timestamp then
      { s with entries := eraseEntry s.entries t.key }
    else s

/-- Run every scheduled eviction whose firing time has arrived (the timers
the JavaScript event loop would have run by time `now`). -/
def fireDueTimers (now : Nat) (s : CacheState) : CacheState :=
  (s.timers.filter (fun t => t.fireAt ≤ now)).foldl fireTimer
    { s with timers := s.timers.filter (fun t => ¬ t.fireAt ≤ now) }

/-- `getOrFetch` (cache.ts): return the cached value if the `get` result is
truthy; otherwise invoke the fetcher and cache its result.  The fetcher is
modelled by the value `fetched` it would produce; the returned boolean
records whether the fetcher was invoked. -/
def getOrFetch (dflt now : Nat) (cacheKey : String) (fetched : JsVal)
    (duration : Option Nat) (s : CacheState) : JsVal × CacheState × Bool :=
  let r := Cache.get dflt now cacheKey s
  match r.1 with
  | some v =>
    if truthy v then (v, r.2, false)
    else (fetched, Cache.set now cacheKey fetched duration r.2, true)
  | none => (fetched, Cache.set now cacheKey fetched duration r.2, true)

/-! ## Query executor with retry (src/lib/db.ts, executeWithRetry) -/

/-- The backoff delay waited after a failed attempt:
`Math.min(100 * Math.pow(2, attempt), 2000)` milliseconds. -/
def backoffDelay (attempt : Nat) : Nat := min (100 * 2 ^ attempt) 2000

/-- The retry loop of `executeWithRetry`, unrolled over the remaining number
of attempts.  `run attempt` is the outcome of executing the statement on
that attempt.  Returns the final outcome together with the list of backoff
delays that were waited; when every attempt fails the carried `lastError`
(initially `undefined`, i.e. `none`) is thrown. -/
def retryAux {E R : Type} (run : Nat → Except E R) :
    Nat → Nat → Option E → Except (Option E) R × List Nat
  | _, 0, lastError => (.error lastError, [])
  | attempt, rem + 1, _ =>
    match run attempt with
    | .ok r => (.ok r, [])
    | .error e =>
      let rest := retryAux run (attempt + 1) rem (some e)
      (rest.1, if rem = 0 then rest.2 else backoffDelay attempt :: rest.2)

/-- `executeWithRetry(sql, args, maxRetries)`: attempts 1 .. maxRetries,
waiting `backoffDelay attempt` between consecutive attempts. -/
def executeWithRetry {E R : Type} (run : Nat → Except E R) (maxRetries : Nat) :
    Except (Option E) R × List Nat :=
  retryAux run 1 maxRetries none

/-! ## Transaction runner (src/lib/db.ts, executeInTransaction) -/

/-- `executeInTransaction(callback)`: run the callback against the current
state; on success commit its state, on any exception roll back (the rollback
attempt may itself fail, which is logged and ignored) and re-throw the
original exception.  The callback is modelled as a function from the
committed state to either an error or a result paired with the state its
transaction-scoped writes would commit. -/
def executeInTransaction {S E T : Type} (s : S) (callback : S → Except E (T × S))
    (rollbackFails : Bool) : Except E T × S :=
  match callback s with
  | .ok (t, s2) => (.ok t, s2)
  | .error e => (.error e, s)

/-! ## Slug generation (generateSlug in the utils module)

`generateSlug(title, existingSlugs)` lowercases and trims the title,
removes the characters the regex `[^\w\s-]` matches, collapses the runs
matched by `[\s_-]+` into single hyphens, trims leading and trailing
hyphens, pads to a 3-character minimum with the first character (falling
back to the letter a), and finally resolves collisions against
`existingSlugs` by appending `-1`, `-2`, ... until the candidate is free.
Characters are handled through their code points. -/

/-- JavaScript ASCII lowercasing: map code points 65..90 to 97..122. -/
def toLowerAscii (c : Char) : Char :=
  if 65 ≤ c.toNat ∧ c.toNat ≤ 90 then Char.ofNat (c.toNat + 32) else c

/-- An ASCII uppercase letter. -/
def isUpperChar (c : Char) : Bool := decide (65 ≤ c.toNat ∧ c.toNat ≤ 90)

/-- An ASCII lowercase letter. -/
def isLowerChar (c : Char) : Bool := decide (97 ≤ c.toNat ∧ c.toNat ≤ 122)

/-- An ASCII decimal digit. -/
def isDigitChar (c : Char) : Bool := decide (48 ≤ c.toNat ∧ c.toNat ≤ 57)

/-- The ASCII part of the regex class `\s` (also what `String.trim`
removes): space, tab, line feed, vertical tab, form feed, carriage
return. -/
def isJsWhitespace (c : Char) : Bool :=
  decide (c.toNat = 32 ∨ c.toNat = 9 ∨ c.toNat = 10 ∨ c.toNat = 11 ∨
    c.toNat = 12 ∨ c.toNat = 13)

/-- The regex class `\w`: letters, digits and the underscore. -/
def isWordChar (c : Char) : Bool :=
  isUpperChar c || isLowerChar c || isDigitChar c || decide (c.toNat = 95)

/-- The characters `generateSlug` keeps (the complement of `[^\w\s-]`). -/
def keepChar (c : Char) : Bool := isWordChar c || isJsWhitespace c || decide (c.toNat = 45)

/-- The regex class `[\s_-]` whose runs collapse into single hyphens. -/
def isSepChar (c : Char) : Bool := isJsWhitespace c || decide (c.toNat = 95) || decide (c.toNat = 45)

/-- Drop the characters satisfying `p` from both ends (`String.trim` with
`p` the whitespace test; also used for the hyphen-trimming regex
`/^-+|-+$/`). -/
def trimChars (p : Char → Bool) (l : List Char) : List Char :=
  ((l.dropWhile p).reverse.dropWhile p).reverse

/-- Replace every maximal run of separator characters by a single hyphen
(the regex replace `/[\s_-]+/g, "-"`); the boolean records whether the
previous character belonged to a run. -/
def collapseRuns (sep : Char → Bool) : Bool → List Char → List Char
  | _, [] => []
  | prevSep, c :: rest =>
    if sep c then
      if prevSep then collapseRuns sep true rest
      else '-' :: collapseRuns sep true rest
    else c :: collapseRuns sep false rest

/-- `slug.padEnd(3, slug.charAt(0) || "a")`: pad to three characters by
repeating the first character, falling back to the letter a. -/
def padTo3 (l : List Char) : List Char :=
  if l.length < 3 then l ++ List.replicate (3 - l.length) (l.headD 'a') else l

/-- The normalization pipeline of `generateSlug`, before collision
resolution. -/
def slugBase (title : String) : String :=
  let lowered := title.data.map toLowerAscii
  let trimmed := trimChars isJsWhitespace lowered
  let stripped := trimmed.filter keepChar
  let collapsed := collapseRuns isSepChar false stripped
  let hyphenTrimmed := trimChars (fun c => decide (c.toNat = 45)) collapsed
  String.mk (padTo3 hyphenTrimmed)

/-- One decimal digit as a character. -/
def decDigitChar : Nat → Char
  | 0 => '0' | 1 => '1' | 2 => '2' | 3 => '3' | 4 => '4'
  | 5 => '5' | 6 => '6' | 7 => '7' | 8 => '8' | _ => '9'

/-- The decimal digits of `n`, least significant first, with explicit
fuel (`fuel > n` suffices). -/
def decDigitsRevAux : Nat → Nat → List Char
  | _, 0 => []
  | n, fuel + 1 =>
    if n < 10 then [decDigitChar n]
    else decDigitChar (n % 10) :: decDigitsRevAux (n / 10) fuel

/-- Decimal rendering of a natural number, as JavaScript template
interpolation renders the counter. -/
def natToDecStr (n : Nat) : String := String.mk (decDigitsRevAux n (n + 1)).reverse

/-- The numeric value of a digit character. -/
def charToDigit (c : Char) : Nat := c.toNat - 48

/-- Recover a natural number from its little-endian digit characters. -/
def decValRev : List Char → Nat
  | [] => 0
  | c :: cs => charToDigit c + 10 * decValRev cs

/-- The candidate slug with numeric suffix: the template literal
appending a hyphen and the counter. -/
def slugCand (slug : String) (counter : Nat) : String :=
  slug ++ "-" ++ natToDecStr counter

/-- The collision loop of `generateSlug`: increment the counter until the
candidate is free.  The fuel bounds the number of membership tests; with
fuel at least the number of existing slugs the loop always finds a free
candidate first (see `findFreeSlug_spec`). -/
def findFreeSlug (slug : String) (existing : List String) : Nat → Nat → String
  | counter, 0 => slugCand slug counter
  | counter, fuel + 1 =>
    let cand := slugCand slug counter
    if cand ∈ existing then findFreeSlug slug existing (counter + 1) fuel else cand

/-- `generateSlug(title, existingSlugs)`. -/
def generateSlug (title : String) (existingSlugs : List String) : String :=
  if title = "" then ""
  else
    let slug := slugBase title
    if slug ∈ existingSlugs then
      findFreeSlug slug existingSlugs 1 existingSlugs.length
    else slug

/-! ### The normalization the spec describes, and the one the code performs -/

/-- The character class `[a-z0-9\s-]` named by the spec sentence. -/
def specKeepChar (c : Char) : Bool :=
  isLowerChar c || isDigitChar c || isJsWhitespace c || decide (c.toNat = 45)

/-- Separators per the spec sentence: whitespace and hyphens. -/
def specSepChar (c : Char) : Bool := isJsWhitespace c || decide (c.toNat = 45)

/-- Modelled from the spec sentence of C8, word for word: lowercase the
title, strip every character outside `[a-z0-9\s-]`, collapse runs of
whitespace and hyphens into single hyphens, trim leading and trailing
hyphens, pad with a repeated character to a 3-character minimum. -/
def specSlugNormalize (title : String) : String :=
  let lowered := title.data.map toLowerAscii
  let stripped := lowered.filter specKeepChar
  let collapsed := collapseRuns specSepChar false stripped
  let hyphenTrimmed := trimChars (fun c => decide (c.toNat = 45)) collapsed
  String.mk (padTo3 hyphenTrimmed)

/-- The character class the code actually keeps once the title is
lowercased: `[a-z0-9_\s-]` — underscores survive the strip. -/
def amendedKeepChar (c : Char) : Bool :=
  isLowerChar c || isDigitChar c || decide (c.toNat = 95) ||
    isJsWhitespace c || decide (c.toNat = 45)

/-- The amended normalization: empty titles map to the empty string;
otherwise lowercase and trim, strip characters outside `[a-z0-9_\s-]`
(underscores are kept), collapse runs of whitespace, underscores and
hyphens into single hyphens, trim leading and trailing hyphens, and pad
with the first character (or the letter a) to a 3-character minimum. -/
def amendedSlugNormalize (title : String) : String :=
  if title = "" then ""
  else
    let lowered := trimChars isJsWhitespace (title.data.map toLowerAscii)
    let stripped := lowered.filter amendedKeepChar
    let collapsed := collapseRuns isSepChar false stripped
    let hyphenTrimmed := trimChars (fun c => decide (c.toNat = 45)) collapsed
    String.mk (padTo3 hyphenTrimmed)

/-! ## The database tables and the write-path route handlers

Rows carry the columns the modelled handlers read or write; amounts and
goal amounts are rationals (JavaScript numbers), timestamps are opaque
strings threaded in by the caller. -/

structure CampaignRow where
  id : String
  title : String
  goal_amount : ℚ
  slug : String
  wallet_address : String
  creator_id : String
  deriving Repr, DecidableEq

structure UserRow where
  id : String
  wallet_address : String
  created_at : String
  updated_at : String
  deriving Repr, DecidableEq

structure DonationRow where
  id : String
  campaign_id : String
  donor_id : Option String
  amount : ℚ
  transaction_signature : String
  created_at : String
  deriving Repr, DecidableEq

structure DbState where
  campaigns : List CampaignRow
  users : List UserRow
  donations : List DonationRow
  deriving Repr, DecidableEq

/-- Outcome of the donations POST handler. -/
inductive DonationOutcome where
  /-- The transaction committed; the donation id is returned (HTTP 200). -/
  | recorded (donationId : String)
  /-- The campaign check failed; the transaction rolled back (HTTP 404). -/
  | campaignNotFound
  /-- The donation INSERT violated the primary key on donations.id; the
  transaction rolled back (HTTP 500). -/
  | constraintViolation
  deriving Repr, DecidableEq

/-- POST of src/app/api/donations/route.ts: inside one transaction, check
the campaign exists, find or create the user for the wallet, and insert
the donation row.  There is no check on `transaction_signature`, and the
donations table has no unique constraint on it (schema.sql); only the
primary key on donations.id can reject the insert.  `newUserId` is the
UUID the handler would generate, `now` the ISO timestamp. -/
def postDonation (s : DbState) (newUserId now : String)
    (id campaign_id wallet_address : String) (amount : ℚ)
    (transaction_signature : String) : DonationOutcome × DbState :=
  if (s.campaigns.filter (fun c => c.id = campaign_id)).isEmpty then
    (.campaignNotFound, s)
  else
    let userId :=
      match s.users.find? (fun u => u.wallet_address = wallet_address) with
      | some u => u.id
      | none => newUserId
    let users' :=
      match s.users.find? (fun u => u.wallet_address = wallet_address) with
      | some _ => s.users
      | none => s.users ++ [⟨newUserId, wallet_address, now, now⟩]
    if s.donations.any (fun d => d.id = id) then
      (.constraintViolation, s)
    else
      (.recorded id,
        { s with
            users := users'
            donations := s.donations ++
              [⟨id, campaign_id, some userId, amount, transaction_signature, now⟩] })

/-- Outcome of a campaign DELETE handler. -/
inductive DeleteOutcome where
  /-- Deletion ran to completion (HTTP 200). -/
  | deleted
  /-- The id+wallet ownership check matched nothing (HTTP 404, the
  deliberately vague not-found-or-no-permission response). -/
  | notFoundOrForbidden
  /-- The id lookup matched nothing (HTTP 404). -/
  | notFound
  deriving Repr, DecidableEq

/-- DELETE of src/app/api/campaigns/route.ts: verify the campaign belongs
to the supplied wallet (a single SELECT on id AND wallet_address), then
delete the donations referencing the id and then the campaign row — two
sequential statements, not wrapped in a transaction. -/
def campaignsDELETE (s : DbState) (id walletAddress : String) :
    DeleteOutcome × DbState :=
  if (s.campaigns.filter (fun c => c.id = id ∧ c.wallet_address = walletAddress)).isEmpty then
    (.notFoundOrForbidden, s)
  else
    (.deleted,
      { s with
          donations := s.donations.filter (fun d => ¬ d.campaign_id = id)
          campaigns := s.campaigns.filter (fun c => ¬ c.id = id) })

/-- DELETE of src/app/api/campaigns/[id]/route.ts: look the campaign up
by id only — no wallet parameter, no ownership check — and delete the
campaign row alone; the donations table is not touched. -/
def campaignIdDELETE (s : DbState) (id : String) : DeleteOutcome × DbState :=
  if (s.campaigns.filter (fun c => c.id = id)).isEmpty then
    (.notFound, s)
  else
    (.deleted, { s with campaigns := s.campaigns.filter (fun c => ¬ c.id = id) })

/-! ## Aggregate summary (src/app/api/donations/summary/route.ts and the
campaigns GET mapping) -/

/-- The funding percentage as both handlers compute it:
`goalAmount > 0 ? Math.min(Math.round(totalRaised / goalAmount * 100), 100) : 0`. -/
def fundingPercentage (totalRaised goalAmount : ℚ) : ℤ :=
  if goalAmount > 0 then min (round (totalRaised / goalAmount * 100)) 100 else 0

/-- `SELECT COALESCE(SUM(amount), 0) FROM donations WHERE campaign_id = ?`. -/
def totalForCampaign (s : DbState) (campaignId : String) : ℚ :=
  ((s.donations.filter (fun d => d.campaign_id = campaignId)).map
    (fun d => d.amount)).sum

/-- The summary the donations summary GET returns (the fields the claims
concern). -/
structure DonationSummary where
  campaign_id : String
  goal_amount : ℚ
  total_raised : ℚ
  donation_count : Nat
  progress_percentage : ℤ
  deriving Repr, DecidableEq

/-- GET of src/app/api/donations/summary/route.ts: 404 when the campaign
is absent; otherwise aggregate the campaign's donations and compute the
progress percentage. -/
def donationsSummaryGET (s : DbState) (campaignId : String) :
    Option DonationSummary :=
  match s.campaigns.find? (fun c => c.id = campaignId) with
  | none => none
  | some campaign =>
    let rows := s.donations.filter (fun d => d.campaign_id = campaignId)
    let totalRaised := (rows.map (fun d => d.amount)).sum
    some ⟨campaignId, campaign.goal_amount, totalRaised, rows.length,
      fundingPercentage totalRaised campaign.goal_amount⟩

/-- The funding percentage attached to one row by the campaigns GET
mapping (src/app/api/campaigns/route.ts, lines 398-425), fed by the
per-campaign SUM subquery. -/
def campaignRowFundingPercentage (s : DbState) (c : CampaignRow) : ℤ :=
  fundingPercentage (totalForCampaign s c.id) c.goal_amount

/-! ## Concrete sample inputs used by the closed theorems -/

/-- A store holding one campaign (owned by walletA) and nothing else. -/
def sampleCampaignOnly : DbState :=
  ⟨[⟨"c1", "Help My Dog", 100, "help-my-dog", "walletA", "uA"⟩], [], []⟩

/-- A store holding one campaign (owned by walletA), one user and one
donation of 50 recorded against the campaign. -/
def sampleCampaignWithDonation : DbState :=
  ⟨[⟨"c1", "Help My Dog", 200, "help-my-dog", "walletA", "uA"⟩],
   [⟨"u1", "walletD", "t0", "t0"⟩],
   [⟨"d1", "c1", some "u1", 50, "SIGEXISTING", "t0"⟩]⟩

/-- First submission of a donation with signature SIGDUP. -/
def replayFirst : DonationOutcome × DbState :=
  postDonation sampleCampaignOnly "u1" "t1" "d1" "c1" "walletD" (3 / 2) "SIGDUP"

/-- Replay of the same donation, same signature, fresh id. -/
def replaySecond : DonationOutcome × DbState :=
  postDonation replayFirst.2 "u2" "t2" "d2" "c1" "walletD" (3 / 2) "SIGDUP"

/-- Replay of the same donation with the same id as the first call. -/
def replaySameId : DonationOutcome × DbState :=
  postDonation replayFirst.2 "u2" "t2" "d1" "c1" "walletD" (3 / 2) "SIGDUP"

/-- The summary computed over `sampleCampaignWithDonation`. -/
def sampleSummary : DonationSummary :=
  (donationsSummaryGET sampleCampaignWithDonation "c1").getD ⟨"", 0, 0, 0, 0⟩

/-- A cache holding one entry stored at time 0 with an explicit TTL of
1000 milliseconds. -/
def sampleExpiringCache : CacheState :=
  Cache.set 0 "stats" (.num 1) (some 1000) CacheState.empty

/-- A cache holding the falsy value 0 stored at time 0 with no explicit
TTL. -/
def sampleFalsyCache : CacheState :=
  Cache.set 0 "count" (.num 0) none CacheState.empty

/-- A statement execution that fails twice and succeeds on the third
attempt. -/
def sampleRunThirdOk : Nat → Except String Nat :=
  fun attempt => if attempt = 3 then .ok 7 else .error "transient"

/-- A transaction callback that always succeeds, returning 7 and
incrementing the state. -/
def sampleCallback : Nat → Except String (Nat × Nat) :=
  fun n => .ok (7, n + 1)

/-! # Lemmas and claim theorems -/

/-! ### Cache lemmas -/

theorem lookupEntry_eraseEntry_self (l : List (String × CacheEntry)) (key : String) :
    lookupEntry (eraseEntry l key) key = none := by
  induction l with
  | nil => rfl
  | cons p rest ih =>
    obtain ⟨k, e⟩ := p
    by_cases hk : k = key
    · simpa [eraseEntry, hk] using ih
    · simpa [eraseEntry, lookupEntry, hk] using ih

theorem lookupEntry_eraseEntry_other (l : List (String × CacheEntry)) (k' key : String)
    (h : k' ≠ key) : lookupEntry (eraseEntry l k') key = lookupEntry l key := by
  induction l with
  | nil => rfl
  | cons p rest ih =>
    obtain ⟨k, e⟩ := p
    by_cases hk : k = k'
    · simp [eraseEntry, lookupEntry, hk, h, ih]
    · by_cases hkey : k = key
      · simp [eraseEntry, lookupEntry, hk, hkey, Ne.symm h]
      · simp [eraseEntry, lookupEntry, hk, hkey, ih]

/-- Firing one timer either leaves the entry at `key` alone or deletes it. -/
theorem lookupEntry_fireTimer (s : CacheState) (t : EvictionTimer) (key : String) :
    lookupEntry (fireTimer s t).entries key = none ∨
      lookupEntry (fireTimer s t).entries key = lookupEntry s.entries key := by
  unfold fireTimer
  cases hl : lookupEntry s.entries t.key with
  | none => right; rfl
  | some e =>
    by_cases hts : e.timestamp = t.timestamp
    · by_cases hk : t.key = key
      · left; simpa [hts, hk] using lookupEntry_eraseEntry_self s.entries key
      · right; simpa [hts] using lookupEntry_eraseEntry_other s.entries t.key key hk
    · right; simp [hts]

/-- An absent entry stays absent under timer firing. -/
theorem lookupEntry_fireTimer_none (s : CacheState) (t : EvictionTimer) (key : String)
    (h : lookupEntry s.entries key = none) :
    lookupEntry (fireTimer s t).entries key = none := by
  rcases lookupEntry_fireTimer s t key with h' | h'
  · exact h'
  · rw [h', h]

/-- An absent entry stays absent under any sequence of timer firings. -/
theorem lookupEntry_foldl_fireTimer_none (l : List EvictionTimer) (s : CacheState)
    (key : String) (h : lookupEntry s.entries key = none) :
    lookupEntry (l.foldl fireTimer s).entries key = none := by
  induction l generalizing s with
  | nil => exact h
  | cons t rest ih =>
    exact ih (fireTimer s t) (lookupEntry_fireTimer_none s t key h)

/-- After the fold runs a timer matching the present entry at `key`, the
entry at `key` is gone (it can only have been deleted in the meantime, never
replaced, so the matching timer deletes whatever is left). -/
theorem lookupEntry_foldl_fireTimer_eq_none (l : List EvictionTimer) (s : CacheState)
    (key : String) (ts : Nat) (t0 : EvictionTimer) (hmem : t0 ∈ l)
    (hkey : t0.key = key) (hts : t0.timestamp = ts)
    (hcur : ∀ e, lookupEntry s.entries key = some e → e.timestamp = ts) :
    lookupEntry (l.foldl fireTimer s).entries key = none := by
  induction l generalizing s with
  | nil => cases hmem
  | cons t rest ih =>
    rcases List.mem_cons.mp hmem with rfl | hmem'
    · -- the matching timer runs now
      have hdel : lookupEntry (fireTimer s t0).entries key = none := by
        unfold fireTimer
        cases hl : lookupEntry s.entries t0.key with
        | none => simpa [hkey] using hl
        | some e =>
          have he : e.timestamp = ts := hcur e (by simpa [hkey] using hl)
          simp only [he, hts, if_pos rfl]
          simpa [hkey] using lookupEntry_eraseEntry_self s.entries key
      exact lookupEntry_foldl_fireTimer_none rest (fireTimer s t0) key hdel
    · -- some other timer runs first: the entry survives unchanged or is deleted
      refine ih (fireTimer s t) hmem' ?_
      intro e he
      rcases lookupEntry_fireTimer s t key with h' | h'
      · rw [h'] at he; cases he
      · exact hcur e (h' ▸ he)

theorem lookupEntry_set_self (now : Nat) (key : String) (data : JsVal)
    (duration : Option Nat) (s : CacheState) :
    lookupEntry (Cache.set now key data duration s).entries key =
      some ⟨data, now⟩ := by
  cases duration <;> simp [Cache.set, lookupEntry]

/-! ### Decimal rendering is injective -/

theorem charToDigit_decDigitChar (d : Nat) (h : d < 10) :
    charToDigit (decDigitChar d) = d := by
  interval_cases d <;> rfl

theorem decValRev_decDigitsRevAux (fuel : Nat) :
    ∀ n, n < fuel → decValRev (decDigitsRevAux n fuel) = n := by
  induction fuel with
  | zero => intro n h; omega
  | succ fuel ih =>
    intro n h
    by_cases h10 : n < 10
    · simp [decDigitsRevAux, h10, decValRev, charToDigit_decDigitChar n h10]
    · have hdiv : n / 10 < fuel := by
        have : n / 10 < n := Nat.div_lt_self (by omega) (by omega)
        omega
      have hmod : n % 10 < 10 := Nat.mod_lt n (by omega)
      simp only [decDigitsRevAux, if_neg h10, decValRev,
        charToDigit_decDigitChar _ hmod, ih _ hdiv]
      omega

theorem natToDecStr_injective : Function.Injective natToDecStr := by
  intro a b h
  have hdata : (decDigitsRevAux a (a + 1)).reverse = (decDigitsRevAux b (b + 1)).reverse :=
    congrArg String.data h
  have hlists : decDigitsRevAux a (a + 1) = decDigitsRevAux b (b + 1) := by
    simpa using congrArg List.reverse hdata
  have hval := congrArg decValRev hlists
  rwa [decValRev_decDigitsRevAux _ a (Nat.lt_succ_self a),
    decValRev_decDigitsRevAux _ b (Nat.lt_succ_self b)] at hval

theorem slugCand_injective (slug : String) : Function.Injective (slugCand slug) := by
  intro a b h
  apply natToDecStr_injective
  have hdata := congrArg String.data h
  simp only [slugCand, String.data_append] at hdata
  have := List.append_cancel_left hdata
  cases ha : natToDecStr a with
  | mk la =>
    cases hb : natToDecStr b with
    | mk lb =>
      rw [ha, hb] at this
      simpa using congrArg String.mk this

/-! ### The collision loop returns the first free candidate -/

theorem exists_free_suffix (slug : String) (existing : List String) :
    ∃ i, i ≤ existing.length ∧ slugCand slug (1 + i) ∉ existing := by
  by_contra hall
  push_neg at hall
  have hsub : (Finset.range (existing.length + 1)).image (fun i => slugCand slug (1 + i)) ⊆
      existing.toFinset := by
    intro x hx
    simp only [Finset.mem_image, Finset.mem_range] at hx
    obtain ⟨i, hi, rfl⟩ := hx
    exact List.mem_toFinset.mpr (hall i (Nat.lt_succ_iff.mp hi))
  have hinj : Function.Injective (fun i : Nat => slugCand slug (1 + i)) := by
    intro a b hab
    have := slugCand_injective slug hab
    omega
  have hcard : existing.length + 1 ≤ existing.toFinset.card := by
    have himg : ((Finset.range (existing.length + 1)).image
        (fun i => slugCand slug (1 + i))).card = existing.length + 1 := by
      rw [Finset.card_image_of_injective _ hinj, Finset.card_range]
    calc existing.length + 1 = _ := himg.symm
      _ ≤ existing.toFinset.card := Finset.card_le_card hsub
  have hle : existing.toFinset.card ≤ existing.length := existing.toFinset_card_le
  omega

theorem findFreeSlug_spec (slug : String) (existing : List String) :
    ∀ fuel counter, (∃ i, i ≤ fuel ∧ slugCand slug (counter + i) ∉ existing) →
      ∃ m, findFreeSlug slug existing counter fuel = slugCand slug (counter + m) ∧
        slugCand slug (counter + m) ∉ existing ∧
        ∀ j, j < m → slugCand slug (counter + j) ∈ existing := by
  intro fuel
  induction fuel with
  | zero =>
    rintro counter ⟨i, hi, hfree⟩
    refine ⟨0, rfl, ?_, by omega⟩
    have : i = 0 := by omega
    simpa [this] using hfree
  | succ fuel ih =>
    rintro counter ⟨i, hi, hfree⟩
    by_cases hc : slugCand slug counter ∈ existing
    · have hi0 : i ≠ 0 := by
        rintro rfl
        simp only [Nat.add_zero] at hfree
        exact hfree hc
      have hstep : slugCand slug (counter + 1 + (i - 1)) ∉ existing := by
        have : counter + 1 + (i - 1) = counter + i := by omega
        rwa [this]
      obtain ⟨m, hres, hfree', hmin⟩ := ih (counter + 1) ⟨i - 1, by omega, hstep⟩
      refine ⟨m + 1, ?_, ?_, ?_⟩
      · have : counter + 1 + m = counter + (m + 1) := by omega
        simpa [findFreeSlug, hc, this] using hres
      · have : counter + 1 + m = counter + (m + 1) := by omega
        rwa [this] at hfree'
      · intro j hj
        rcases Nat.eq_zero_or_pos j with rfl | hjpos
        · simpa using hc
        · have : counter + j = counter + 1 + (j - 1) := by omega
          rw [this]
          exact hmin (j - 1) (by omega)
    · exact ⟨0, by simp [findFreeSlug, hc], by simpa using hc, by omega⟩


theorem toNat_ofNat_valid (n : Nat) (h : n < 55296) : (Char.ofNat n).toNat = n := by
  rw [Char.ofNat, dif_pos (Or.inl h)]
  rfl

theorem isUpperChar_toLowerAscii (c : Char) : isUpperChar (toLowerAscii c) = false := by
  unfold toLowerAscii
  by_cases h : 65 ≤ c.toNat ∧ c.toNat ≤ 90
  · rw [if_pos h]
    have hv : (Char.ofNat (c.toNat + 32)).toNat = c.toNat + 32 :=
      toNat_ofNat_valid _ (by omega)
    simp only [isUpperChar, hv, decide_eq_false_iff_not]
    omega
  · rw [if_neg h]
    simpa only [isUpperChar, decide_eq_false_iff_not] using h

theorem keepChar_eq_amended (c : Char) (h : isUpperChar c = false) :
    keepChar c = amendedKeepChar c := by
  simp [keepChar, isWordChar, amendedKeepChar, h, Bool.or_assoc]

theorem mem_trimChars {p : Char → Bool} {l : List Char} {c : Char}
    (h : c ∈ trimChars p l) : c ∈ l := by
  unfold trimChars at h
  rw [List.mem_reverse] at h
  have h1 := (List.dropWhile_sublist p).subset h
  rw [List.mem_reverse] at h1
  exact (List.dropWhile_sublist p).subset h1

theorem slugBase_eq_amended (title : String) (h : title ≠ "") :
    slugBase title = amendedSlugNormalize title := by
  unfold slugBase amendedSlugNormalize
  rw [if_neg h]
  have hfilter :
      (trimChars isJsWhitespace (title.data.map toLowerAscii)).filter keepChar =
        (trimChars isJsWhitespace (title.data.map toLowerAscii)).filter amendedKeepChar := by
    apply List.filter_congr
    intro c hc
    have hmem : c ∈ title.data.map toLowerAscii := mem_trimChars hc
    obtain ⟨x, _, rfl⟩ := List.mem_map.mp hmem
    exact keepChar_eq_amended _ (isUpperChar_toLowerAscii x)
  simp only [hfilter]

/-! ## Claim C7 and C8 theorems -/

/-- C7: slug allocation is deterministic in the title and the existing
slugs.  With no existing slugs the title Help My Dog yields help-my-dog;
when help-my-dog exists already it yields help-my-dog-1; and in general,
for a non-empty title whose base slug collides, the allocator returns the
base slug with the smallest positive numeric suffix that is free (every
smaller suffix being taken), so the result never collides with an
existing slug. -/
theorem generateSlug_deterministic_and_incrementing (title : String)
    (existing : List String) (ht : title ≠ "") :
    generateSlug "Help My Dog" [] = "help-my-dog" ∧
    generateSlug "Help My Dog" ["help-my-dog"] = "help-my-dog-1" ∧
    (slugBase title ∉ existing → generateSlug title existing = slugBase title) ∧
    (slugBase title ∈ existing →
      ∃ k, 1 ≤ k ∧ generateSlug title existing = slugCand (slugBase title) k ∧
        slugCand (slugBase title) k ∉ existing ∧
        ∀ j, 1 ≤ j → j < k → slugCand (slugBase title) j ∈ existing) ∧
    generateSlug title existing ∉ existing := by
  have hA : generateSlug "Help My Dog" [] = "help-my-dog" := by decide
  have hB : generateSlug "Help My Dog" ["help-my-dog"] = "help-my-dog-1" := by decide
  have hfree : slugBase title ∉ existing → generateSlug title existing = slugBase title := by
    intro hf
    simp [generateSlug, ht, hf]
  have hcoll : slugBase title ∈ existing →
      ∃ k, 1 ≤ k ∧ generateSlug title existing = slugCand (slugBase title) k ∧
        slugCand (slugBase title) k ∉ existing ∧
        ∀ j, 1 ≤ j → j < k → slugCand (slugBase title) j ∈ existing := by
    intro hmem
    obtain ⟨i, hi, hifree⟩ := exists_free_suffix (slugBase title) existing
    obtain ⟨m, hres, hmfree, hmin⟩ :=
      findFreeSlug_spec (slugBase title) existing existing.length 1 ⟨i, hi, hifree⟩
    refine ⟨1 + m, by omega, ?_, hmfree, ?_⟩
    · simpa [generateSlug, ht, hmem] using hres
    · intro j h1 hj
      have : (1 : Nat) + (j - 1) = j := by omega
      simpa [this] using hmin (j - 1) (by omega)
  refine ⟨hA, hB, hfree, hcoll, ?_⟩
  by_cases hmem : slugBase title ∈ existing
  · obtain ⟨k, _, hres, hkfree, _⟩ := hcoll hmem
    rw [hres]
    exact hkfree
  · rw [hfree hmem]
    exact hmem

/-- C7 witness: the allocator at the concrete input of the scenario, with
two taken suffix-free slugs, returns a slug outside the existing list. -/
theorem generateSlug_deterministic_and_incrementing_witness :
    ("Help My Dog" ≠ "") ∧
      generateSlug "Help My Dog" ["help-my-dog", "help-my-dog-1"] ∉
        ["help-my-dog", "help-my-dog-1"] :=
  ⟨by decide,
    (generateSlug_deterministic_and_incrementing "Help My Dog"
      ["help-my-dog", "help-my-dog-1"] (by decide)).2.2.2.2⟩

/-- C8 counterexample: the claim says every character outside
`[a-z0-9\s-]` is stripped, but the code keeps underscores (the regex
keeps the class `\w`) and turns them into hyphens: on the title a_b the
code returns a-b while the claimed normalization returns aba. -/
theorem generateSlug_strips_underscores_counterexample :
    generateSlug "a_b" [] = "a-b" ∧ specSlugNormalize "a_b" = "aba" ∧
      generateSlug "a_b" [] ≠ specSlugNormalize "a_b" := by
  refine ⟨by decide, by decide, by decide⟩

/-- C8 amended: for every title, the slug normalization (the allocator
with no existing slugs) returns the empty string on an empty title, and
otherwise lowercases and trims the title, strips characters outside
`[a-z0-9_\s-]` (underscores are kept), collapses runs of whitespace,
underscores and hyphens into single hyphens, trims leading and trailing
hyphens, and pads with a repeated first character (or the letter a) to a
3-character minimum. -/
theorem generateSlug_normalization_amended (title : String) :
    generateSlug title [] = amendedSlugNormalize title := by
  by_cases h : title = ""
  · simp [generateSlug, amendedSlugNormalize, h]
  · rw [← slugBase_eq_amended title h]
    simp [generateSlug, h]


/-! ## Claims C1-C5 -/

/-- C1: the donations POST handler records a replayed submission again
instead of returning the existing receipt.  With the same
transactionSignature and a fresh id the second call inserts a second
Donation row (two rows carry the signature afterwards, and the two
receipts name different donation ids); with the same id it fails on the
primary key rather than returning the existing receipt.  This contradicts
the claimed idempotency. -/
theorem donations_post_replay_inserts_duplicate :
    replayFirst.1 = .recorded "d1" ∧
    replaySecond.1 = .recorded "d2" ∧
    (replaySecond.2.donations.filter
      (fun d => d.transaction_signature = "SIGDUP")).length = 2 ∧
    replaySameId.1 = .constraintViolation := by
  refine ⟨by decide, by decide, by decide, by decide⟩

/-- C2: with maxAttempts 3, a statement failing twice then succeeding
returns the successful result; a statement failing three times fails with
the error of the third attempt; in both runs the waits between
consecutive attempts are min(100·2^attempt, 2000) ms — 200 then 400 —
and the delays strictly increase as long as the cap is not reached. -/
theorem executeWithRetry_backoff_and_outcomes {E R : Type}
    (run : Nat → Except E R) (e1 e2 e3 : E) (r : R) :
    (run 1 = .error e1 → run 2 = .error e2 → run 3 = .ok r →
      executeWithRetry run 3 = (.ok r, [backoffDelay 1, backoffDelay 2])) ∧
    (run 1 = .error e1 → run 2 = .error e2 → run 3 = .error e3 →
      executeWithRetry run 3 = (.error (some e3), [backoffDelay 1, backoffDelay 2])) ∧
    backoffDelay 1 = 200 ∧ backoffDelay 2 = 400 ∧
    (∀ a, backoffDelay a < 2000 → backoffDelay a < backoffDelay (a + 1)) := by
  refine ⟨?_, ?_, by decide, by decide, ?_⟩
  · intro h1 h2 h3
    simp [executeWithRetry, retryAux, h1, h2, h3]
  · intro h1 h2 h3
    simp [executeWithRetry, retryAux, h1, h2, h3]
  · intro a h
    have h1 : 100 * 2 ^ a < 2000 := by
      rcases min_lt_iff.mp h with h' | h'
      · exact h'
      · omega
    have h2 : 2 ^ a < 2 ^ (a + 1) := Nat.pow_lt_pow_succ (by omega)
    have h3 : backoffDelay a = 100 * 2 ^ a := min_eq_left (le_of_lt h1)
    rw [h3]
    exact lt_min (by omega) h1

/-- C2 witness: a run failing on attempts 1 and 2 and succeeding on
attempt 3 returns the success with delays 200 and 400. -/
theorem executeWithRetry_backoff_and_outcomes_witness :
    sampleRunThirdOk 1 = .error "transient" ∧
    sampleRunThirdOk 2 = .error "transient" ∧
    sampleRunThirdOk 3 = .ok 7 ∧
    executeWithRetry sampleRunThirdOk 3 = (.ok 7, [backoffDelay 1, backoffDelay 2]) :=
  ⟨rfl, rfl, rfl,
    (executeWithRetry_backoff_and_outcomes sampleRunThirdOk "transient" "transient"
      "transient" 7).1 rfl rfl rfl⟩

/-- C3: the transaction runner returns the callback result and commits
its writes when the callback succeeds; on any exception it re-throws the
original exception unchanged — whether or not the rollback attempt
itself fails — and the returned state is the pre-transaction state, so a
failed callback leaves no partial writes visible. -/
theorem executeInTransaction_commit_and_rollback {S E T : Type} (s : S)
    (callback : S → Except E (T × S)) (rollbackFails : Bool) (t : T) (s2 : S) (e : E) :
    (callback s = .ok (t, s2) →
      executeInTransaction s callback rollbackFails = (.ok t, s2)) ∧
    (callback s = .error e →
      executeInTransaction s callback rollbackFails = (.error e, s)) := by
  constructor <;> intro h <;> simp [executeInTransaction, h]

/-- C3 witness: a callback returning 7 with an incremented state commits
that state, with the rollback-failure flag set. -/
theorem executeInTransaction_commit_and_rollback_witness :
    sampleCallback 0 = .ok (7, 1) ∧
    executeInTransaction 0 sampleCallback true = (.ok 7, 1) :=
  ⟨rfl, (executeInTransaction_commit_and_rollback 0 sampleCallback true 7 1 "e").1 rfl⟩

/-- Rows satisfying `p` never survive a filter keeping only rows
violating `p`. -/
theorem filter_pred_filter_not {α : Type} (l : List α) (p : α → Prop)
    [DecidablePred p] :
    (l.filter (fun x => ¬ p x)).filter (fun x => p x) = [] := by
  induction l with
  | nil => rfl
  | cons a t ih => by_cases h : p a <;> simp [h, ih]

/-- C4 counterexample: a successful deletion through the [id] route at a
store holding one donation for the campaign removes the campaign row yet
leaves the donation referencing the deleted campaign id in place, so the
claim that every successful campaign deletion removes the campaign
donations first (leaving no orphans) is false. -/
theorem campaign_id_delete_orphans_counterexample :
    (campaignIdDELETE sampleCampaignWithDonation "c1").1 = .deleted ∧
    (campaignIdDELETE sampleCampaignWithDonation "c1").2.campaigns.filter
      (fun c => c.id = "c1") = [] ∧
    ((campaignIdDELETE sampleCampaignWithDonation "c1").2.donations.filter
      (fun d => d.campaign_id = "c1")).length = 1 := by
  refine ⟨by decide, by decide, by decide⟩

/-- C4 amended: a successful deletion through the collection DELETE
handler removes every Donation row whose campaign_id equals the id and
then the Campaign row — as two sequential statements, not inside a
transaction — so afterwards no Donation row references the id; the
[id]-route DELETE handler deletes only the Campaign row and never
touches the donations table. -/
theorem campaign_delete_removes_children_amended (s : DbState) (id wallet : String)
    (h : (campaignsDELETE s id wallet).1 = .deleted) :
    ((campaignsDELETE s id wallet).2.donations.filter
        (fun d => d.campaign_id = id) = [] ∧
      (campaignsDELETE s id wallet).2.campaigns.filter
        (fun c => c.id = id) = []) ∧
    (campaignIdDELETE s id).2.donations = s.donations := by
  refine ⟨?_, ?_⟩
  · by_cases hc : (s.campaigns.filter
        (fun c => c.id = id ∧ c.wallet_address = wallet)).isEmpty = true
    · exfalso
      unfold campaignsDELETE at h
      rw [if_pos hc] at h
      exact DeleteOutcome.noConfusion h
    · have hres : campaignsDELETE s id wallet =
          (.deleted,
            { s with
                donations := s.donations.filter (fun d => ¬ d.campaign_id = id)
                campaigns := s.campaigns.filter (fun c => ¬ c.id = id) }) := by
        unfold campaignsDELETE
        rw [if_neg hc]
      rw [hres]
      exact ⟨filter_pred_filter_not s.donations (fun d => d.campaign_id = id),
        filter_pred_filter_not s.campaigns (fun c => c.id = id)⟩
  · unfold campaignIdDELETE
    by_cases hc : (s.campaigns.filter (fun c => c.id = id)).isEmpty = true
    · rw [if_pos hc]
    · rw [if_neg hc]

/-- C4 witness: the collection DELETE at the sample store, issued by the
owner wallet, succeeds, and afterwards no donation or campaign row
carries the deleted id, while the [id]-route handler leaves the
donations untouched. -/
theorem campaign_delete_removes_children_amended_witness :
    (campaignsDELETE sampleCampaignWithDonation "c1" "walletA").1 = .deleted ∧
    (((campaignsDELETE sampleCampaignWithDonation "c1" "walletA").2.donations.filter
        (fun d => d.campaign_id = "c1") = [] ∧
      (campaignsDELETE sampleCampaignWithDonation "c1" "walletA").2.campaigns.filter
        (fun c => c.id = "c1") = []) ∧
     (campaignIdDELETE sampleCampaignWithDonation "c1").2.donations =
       sampleCampaignWithDonation.donations) :=
  ⟨by decide,
    campaign_delete_removes_children_amended sampleCampaignWithDonation "c1" "walletA"
      (by decide)⟩

/-- C5: the [id]-route DELETE handler takes no wallet and performs no
ownership check: at a store whose only campaign is owned by walletA, the
deletion request succeeds for any caller and removes the campaign,
whereas the collection handler asked to delete the same campaign as
walletB refuses with the vague not-found-or-forbidden response and
changes nothing. -/
theorem campaign_id_delete_ignores_ownership :
    sampleCampaignWithDonation.campaigns.filter (fun c => c.wallet_address = "walletA") =
      sampleCampaignWithDonation.campaigns ∧
    (campaignIdDELETE sampleCampaignWithDonation "c1").1 = .deleted ∧
    (campaignIdDELETE sampleCampaignWithDonation "c1").2.campaigns = [] ∧
    (campaignsDELETE sampleCampaignWithDonation "c1" "walletB").1 = .notFoundOrForbidden ∧
    (campaignsDELETE sampleCampaignWithDonation "c1" "walletB").2 =
      sampleCampaignWithDonation := by
  refine ⟨by decide, by decide, by decide, by decide, by decide⟩

/-! ## Claims C6, C9 and C10 -/

/-- Any sequence of timer firings either deletes the entry at `key` or
leaves it exactly as it was. -/
theorem lookupEntry_foldl_fireTimer_or (l : List EvictionTimer) (s : CacheState)
    (key : String) :
    lookupEntry ((l.foldl fireTimer s)).entries key = none ∨
      lookupEntry ((l.foldl fireTimer s)).entries key = lookupEntry s.entries key := by
  induction l generalizing s with
  | nil => right; rfl
  | cons t rest ih =>
    rw [List.foldl_cons]
    rcases lookupEntry_fireTimer s t key with h | h
    · left
      exact lookupEntry_foldl_fireTimer_none rest _ key h
    · rcases ih (fireTimer s t) with h' | h'
      · left; exact h'
      · right; rw [h', h]

/-- C6 counterexample: an entry stored at time 0 with an explicit TTL of
1000 ms is still returned — and not evicted — by a bare `get` at time
2000, because `get` compares the entry age against the cache default
duration, never against the TTL given to `set`; so the claim that the
`get` call returns absent and evicts once the per-entry TTL is exceeded
is false. -/
theorem cache_get_ignores_explicit_ttl_counterexample :
    (2000 : Nat) - 0 > 1000 ∧
    (Cache.get defaultDuration 2000 "stats" sampleExpiringCache).1 =
      some (JsVal.num 1) ∧
    lookupEntry (Cache.get defaultDuration 2000 "stats" sampleExpiringCache).2.entries
      "stats" = some ⟨JsVal.num 1, 0⟩ := by
  refine ⟨by decide, by decide, by decide⟩

/-- C6 amended: `get` evicts on access using the cache default duration,
not the per-entry TTL; an entry stored with an explicit TTL is instead
removed by the deferred eviction `set` scheduled.  Hence once the
scheduled evictions due by `now` have fired, `get` never returns an entry
whose TTL — the explicit duration given to `set`, or the default when
none was given — has been exceeded: the lookup yields absent and the
entry is gone from the cache. -/
theorem cache_get_respects_ttl_amended (s : CacheState) (key : String) (v : JsVal)
    (ts : Nat) (dur : Option Nat) (now : Nat)
    (hentry : lookupEntry s.entries key = some ⟨v, ts⟩)
    (htimer : ∀ d, dur = some d → (⟨key, ts, ts + d⟩ : EvictionTimer) ∈ s.timers)
    (hexp : now - ts > dur.getD defaultDuration) :
    (Cache.get defaultDuration now key (fireDueTimers now s)).1 = none ∧
    lookupEntry (Cache.get defaultDuration now key (fireDueTimers now s)).2.entries
      key = none := by
  have hclose : ∀ s2 : CacheState, lookupEntry s2.entries key = none →
      (Cache.get defaultDuration now key s2).1 = none ∧
      lookupEntry (Cache.get defaultDuration now key s2).2.entries key = none := by
    intro s2 hn
    refine ⟨?_, ?_⟩ <;> simp [Cache.get, hn]
  cases dur with
  | none =>
    rcases lookupEntry_foldl_fireTimer_or
        (s.timers.filter (fun t => t.fireAt ≤ now))
        { s with timers := s.timers.filter (fun t => ¬ t.fireAt ≤ now) } key with
      hn | hsame
    · exact hclose _ hn
    · have hlook : lookupEntry (fireDueTimers now s).entries key = some ⟨v, ts⟩ := by
        rw [fireDueTimers, hsame]
        exact hentry
      have hgt : now - ts > defaultDuration := by simpa using hexp
      refine ⟨?_, ?_⟩
      · simp [Cache.get, hlook, hgt]
      · simp [Cache.get, hlook, hgt, lookupEntry_eraseEntry_self]
  | some d =>
    have hdue : (⟨key, ts, ts + d⟩ : EvictionTimer) ∈
        s.timers.filter (fun t => t.fireAt ≤ now) := by
      refine List.mem_filter.mpr ⟨htimer d rfl, ?_⟩
      simp only [Option.getD] at hexp
      simp only [decide_eq_true_eq]
      omega
    have hn : lookupEntry (fireDueTimers now s).entries key = none := by
      rw [fireDueTimers]
      refine lookupEntry_foldl_fireTimer_eq_none _ _ key ts ⟨key, ts, ts + d⟩
        hdue rfl rfl ?_
      intro e he
      have : e = ⟨v, ts⟩ := by
        have h' : some e = some (⟨v, ts⟩ : CacheEntry) := by rw [← he, ← hentry]
        exact Option.some.inj h'
      rw [this]
    exact hclose _ hn

/-- C6 amended witness: the sample entry (stored at 0 with TTL 1000) is
gone at time 2000 once the scheduled eviction has fired. -/
theorem cache_get_respects_ttl_amended_witness :
    lookupEntry sampleExpiringCache.entries "stats" = some ⟨JsVal.num 1, 0⟩ ∧
    (2000 : Nat) - 0 > (some 1000 : Option Nat).getD defaultDuration ∧
    ((Cache.get defaultDuration 2000 "stats" (fireDueTimers 2000 sampleExpiringCache)).1 =
        none ∧
      lookupEntry (Cache.get defaultDuration 2000 "stats"
        (fireDueTimers 2000 sampleExpiringCache)).2.entries "stats" = none) :=
  ⟨by decide, by decide,
    cache_get_respects_ttl_amended sampleExpiringCache "stats" (JsVal.num 1) 0
      (some 1000) 2000 (by decide) (fun d hd => by cases hd; decide) (by decide)⟩

/-- C9: for a campaign the summary endpoint finds, the reported progress
percentage equals min(round(totalRaised / goalAmount · 100), 100) when
the goal amount is positive and 0 otherwise, where totalRaised is the sum
of the amounts of the campaign donation rows; the campaigns GET mapping
attaches the same formula to every listed row. -/
theorem summary_funding_percentage (s : DbState) (cid : String)
    (summ : DonationSummary) (h : donationsSummaryGET s cid = some summ) :
    (summ.progress_percentage =
      if summ.goal_amount > 0
      then min (round (summ.total_raised / summ.goal_amount * 100)) 100
      else 0) ∧
    summ.total_raised = totalForCampaign s cid ∧
    ∀ c, campaignRowFundingPercentage s c =
      if c.goal_amount > 0
      then min (round (totalForCampaign s c.id / c.goal_amount * 100)) 100
      else 0 := by
  unfold donationsSummaryGET at h
  cases hf : s.campaigns.find? (fun c => c.id = cid) with
  | none => rw [hf] at h; cases h
  | some campaign =>
    rw [hf] at h
    have h' := Option.some.inj h
    subst h'
    refine ⟨rfl, rfl, ?_⟩
    intro c
    rfl

/-- C9 witness: at the sample store (goal 200, one donation of 50) the
summary is found and satisfies the formula. -/
theorem summary_funding_percentage_witness :
    donationsSummaryGET sampleCampaignWithDonation "c1" = some sampleSummary ∧
    ((sampleSummary.progress_percentage =
        if sampleSummary.goal_amount > 0
        then min (round (sampleSummary.total_raised / sampleSummary.goal_amount * 100)) 100
        else 0) ∧
      sampleSummary.total_raised = totalForCampaign sampleCampaignWithDonation "c1" ∧
      ∀ c, campaignRowFundingPercentage sampleCampaignWithDonation c =
        if c.goal_amount > 0
        then min (round (totalForCampaign sampleCampaignWithDonation c.id / c.goal_amount * 100)) 100
        else 0) :=
  ⟨rfl, summary_funding_percentage sampleCampaignWithDonation "c1" sampleSummary rfl⟩

/-- C10: when the stored entry under a key is unexpired but holds a falsy
value (0, the empty string, false, or null), `getOrFetch` treats it as a
miss: the fetcher runs again, its result is returned, and the cached
entry is overwritten with the fetched value. -/
theorem getOrFetch_refetches_falsy (s : CacheState) (key : String) (v : JsVal)
    (ts now : Nat) (fetched : JsVal) (dur : Option Nat)
    (hentry : lookupEntry s.entries key = some ⟨v, ts⟩)
    (hfresh : ¬ now - ts > defaultDuration)
    (hfalsy : truthy v = false) :
    getOrFetch defaultDuration now key fetched dur s =
      (fetched, Cache.set now key fetched dur s, true) ∧
    lookupEntry (getOrFetch defaultDuration now key fetched dur s).2.1.entries key =
      some ⟨fetched, now⟩ := by
  have hget : Cache.get defaultDuration now key s = (some v, s) := by
    simp [Cache.get, hentry, hfresh]
  constructor
  · simp [getOrFetch, hget, hfalsy]
  · simp [getOrFetch, hget, hfalsy, lookupEntry_set_self]

/-- C10 witness: a cached 0 stored at time 0 is refetched at time 1000
and overwritten with the fetched 5. -/
theorem getOrFetch_refetches_falsy_witness :
    lookupEntry sampleFalsyCache.entries "count" = some ⟨JsVal.num 0, 0⟩ ∧
    ¬ (1000 : Nat) - 0 > defaultDuration ∧
    truthy (JsVal.num 0) = false ∧
    (getOrFetch defaultDuration 1000 "count" (JsVal.num 5) none sampleFalsyCache =
        (JsVal.num 5, Cache.set 1000 "count" (JsVal.num 5) none sampleFalsyCache, true) ∧
      lookupEntry (getOrFetch defaultDuration 1000 "count" (JsVal.num 5) none
        sampleFalsyCache).2.1.entries "count" = some ⟨JsVal.num 5, 1000⟩) :=
  ⟨by decide, by decide, by decide,
    getOrFetch_refetches_falsy sampleFalsyCache "count" (JsVal.num 0) 0 1000
      (JsVal.num 5) none (by decide) (by decide) (by decide)⟩

end FundSol
